import Mathlib

/-!
Shallow embedding of the js-animation repository core:
the curve-evaluation engine (src/modules/function.js), the progress
state machines (TimeValue / TimeForward / TimeReverse / the loop
variants, and the abstract Animation class), and the frame
clock/scheduler.  JavaScript numbers are modelled as exact rationals;
the sentinel values Infinity (unbounded repeat count) and NaN
(ping-pong direction) are modelled by Option, with none standing for
the non-finite sentinel.  Start/stop lifecycle callbacks are modelled
by invocation counters; the onAnimate delivery is modelled by an
Option-valued result carrying the delivered arguments.
-/

/-- JavaScript Math.sign restricted to finite inputs. -/
def jsSign (q : ℚ) : ℚ := if 0 < q then 1 else if q < 0 then -1 else 0

/-- The sign computed by Animation.next:
isNaN(fDirection) evaluates to 0, otherwise Math.sign(fDirection);
none models the NaN sentinel. -/
def jsSignOpt (d : Option ℚ) : ℚ :=
  match d with
  | none => 0
  | some q => jsSign q

/-- JavaScript `(x | 0)` truncation toward zero (values small enough
that 32-bit wrapping never occurs in this program). -/
def jsTrunc (q : ℚ) : ℤ := if 0 ≤ q then ⌊q⌋ else -⌊-q⌋

/-- State of a TimeValue instance (src/modules/function.js, class
TimeValue).  The JS callback fields fnStart/fnStop are modelled by
invocation counters iStartCalls/iStopCalls. -/
structure TimeValue where
  fTimeStart : ℚ
  fTimeEnd : ℚ
  fTimePause : Option ℚ
  fDuration : ℚ
  bStarted : Bool
  bEnded : Bool
  bRequestEnd : Bool
  fLastValue : Option ℚ
  iStartCalls : ℕ
  iStopCalls : ℕ
  deriving DecidableEq, Repr

/-- TimeValue constructor: fTimeEnd is fTimeStart + fDuration, flags
cleared, no cached value. -/
def TimeValue.init (fTimeStart fDuration : ℚ) : TimeValue :=
  { fTimeStart := fTimeStart
    fTimeEnd := fTimeStart + fDuration
    fTimePause := none
    fDuration := fDuration
    bStarted := false
    bEnded := false
    bRequestEnd := false
    fLastValue := none
    iStartCalls := 0
    iStopCalls := 0 }

/-- TimeValue.pause with an explicit time argument. -/
def TimeValue.pause (tv : TimeValue) (fTime : ℚ) : TimeValue :=
  match tv.fTimePause with
  | none => { tv with fTimePause := some fTime }
  | some _ => tv

/-- TimeValue.resume with an explicit time argument: clears the pause
timestamp and shifts fTimeStart forward by the paused interval.
(The source does not touch fTimeEnd here.) -/
def TimeValue.resume (tv : TimeValue) (fTime : ℚ) : TimeValue :=
  match tv.fTimePause with
  | none => tv
  | some p =>
      { tv with
        fTimePause := none
        fTimeStart := tv.fTimeStart + (fTime - p) }

/-- TimeValue.stop: request the end on the next advance. -/
def TimeValue.stop (tv : TimeValue) : TimeValue :=
  { tv with bRequestEnd := true }

/-- Mark the started flag and fire the start callback if not yet
started (shared prologue of every TimeFunction). -/
def TimeValue.markStarted (tv : TimeValue) : TimeValue :=
  if tv.bStarted then tv
  else { tv with bStarted := true, iStartCalls := tv.iStartCalls + 1 }

/-- Mark the ended flag and fire the stop callback if not yet ended. -/
def TimeValue.markEnded (tv : TimeValue) : TimeValue :=
  if tv.bEnded then tv
  else { tv with bEnded := true, iStopCalls := tv.iStopCalls + 1 }

/-- TimeForward (src/modules/function.js): one-shot forward progress,
returning the updated state and the returned value (none models the
JS null returned before any value was cached). -/
def TimeForward (tv : TimeValue) (fTime : ℚ) : TimeValue × Option ℚ :=
  if tv.bEnded || tv.fTimePause.isSome then (tv, tv.fLastValue)
  else if fTime ≤ tv.fTimeStart then ({ tv with fLastValue := some 0 }, some 0)
  else
    let tv := tv.markStarted
    if fTime ≥ tv.fTimeEnd || tv.bRequestEnd then
      let tv := tv.markEnded
      ({ tv with fLastValue := some 1 }, some 1)
    else
      let v := (fTime - tv.fTimeStart) / tv.fDuration
      ({ tv with fLastValue := some v }, some v)

/-- TimeReverse (src/modules/function.js): one-shot reverse progress. -/
def TimeReverse (tv : TimeValue) (fTime : ℚ) : TimeValue × Option ℚ :=
  if tv.bEnded || tv.fTimePause.isSome then (tv, tv.fLastValue)
  else if fTime ≤ tv.fTimeStart then ({ tv with fLastValue := some 1 }, some 1)
  else
    let tv := tv.markStarted
    if fTime ≥ tv.fTimeEnd || tv.bRequestEnd then
      let tv := tv.markEnded
      ({ tv with fLastValue := some 0 }, some 0)
    else
      let v := (tv.fTimeEnd - fTime) / tv.fDuration
      ({ tv with fLastValue := some v }, some v)

/-- TimeForwardLoop (src/modules/function.js): looping forward
progress, fractional part of elapsed/duration. -/
def TimeForwardLoop (tv : TimeValue) (fTime : ℚ) : TimeValue × Option ℚ :=
  if tv.bEnded || tv.fTimePause.isSome then (tv, tv.fLastValue)
  else if fTime ≤ tv.fTimeStart then ({ tv with fLastValue := some 0 }, some 0)
  else
    let tv := tv.markStarted
    let fPercent := (fTime - tv.fTimeStart) / tv.fDuration
    let v := Int.fract fPercent
    let tv := { tv with fLastValue := some v }
    let tv := if tv.bRequestEnd then tv.markEnded else tv
    (tv, some v)

/-- TimeReverseLoop (src/modules/function.js). -/
def TimeReverseLoop (tv : TimeValue) (fTime : ℚ) : TimeValue × Option ℚ :=
  if tv.bEnded || tv.fTimePause.isSome then (tv, tv.fLastValue)
  else if fTime ≤ tv.fTimeStart then ({ tv with fLastValue := some 1 }, some 1)
  else
    let tv := tv.markStarted
    let fPercent := (fTime - tv.fTimeStart) / tv.fDuration
    let v := 1 - Int.fract fPercent
    let tv := { tv with fLastValue := some v }
    let tv := if tv.bRequestEnd then tv.markEnded else tv
    (tv, some v)

/-- TimePingPongLoop (src/modules/function.js): triangular wave. -/
def TimePingPongLoop (tv : TimeValue) (fTime : ℚ) : TimeValue × Option ℚ :=
  if tv.bEnded || tv.fTimePause.isSome then (tv, tv.fLastValue)
  else if fTime ≤ tv.fTimeStart then ({ tv with fLastValue := some 0 }, some 0)
  else
    let tv := tv.markStarted
    let fPercent := (fTime - tv.fTimeStart) / tv.fDuration
    let v := 1 - |Int.fract fPercent * 2 - 1|
    let tv := { tv with fLastValue := some v }
    let tv := if tv.bRequestEnd then tv.markEnded else tv
    (tv, some v)

/-- State of the abstract Animation class (the globals animation
module).  fCount models the repeat count where none is the non-finite
sentinel (Infinity); fDirection models the direction where none is
the NaN ping-pong sentinel; fTimeEnd is none exactly when the count
is non-finite (Infinity end time).  The onStart/onStop hooks are
modelled by invocation counters; fLastValue caches the last delivered
eased value for onAnimation. -/
structure Animation where
  fTimeStart : ℚ
  fTimeEnd : Option ℚ
  fTimePause : Option ℚ
  fInterval : ℚ
  fDirection : Option ℚ
  fCount : Option ℚ
  bRunning : Bool
  bStarted : Bool
  bEnded : Bool
  bRequestEnd : Bool
  fNextValue : Option ℚ
  fLastValue : Option ℚ
  iStartCalls : ℕ
  iStopCalls : ℕ
  deriving DecidableEq, Repr

/-- Field initializers of the Animation constructor (before any start
call): fTimeStart 0, fTimeEnd 0, fInterval 1, fDirection 1, fCount 1,
all flags false, no cached values. -/
def Animation.init : Animation :=
  { fTimeStart := 0
    fTimeEnd := some 0
    fTimePause := none
    fInterval := 1
    fDirection := some 1
    fCount := some 1
    bRunning := false
    bStarted := false
    bEnded := false
    bRequestEnd := false
    fNextValue := none
    fLastValue := none
    iStartCalls := 0
    iStopCalls := 0 }

/-- Animation.start: records the configuration, computes the end time
(start + interval * |count| when the count is finite, Infinity = none
otherwise), clears the pause timestamp and the flags, resets the
cached next value, and sets the running flag.  No validation of the
arguments is performed by the source. -/
def Animation.start (a : Animation) (fTimeStart fInterval : ℚ)
    (fDirection fCount : Option ℚ) : Animation :=
  { a with
    fTimeStart := fTimeStart
    fTimeEnd := fCount.map (fun c => fTimeStart + fInterval * |c|)
    fTimePause := none
    fInterval := fInterval
    fDirection := fDirection
    fCount := fCount
    bStarted := false
    bEnded := false
    bRequestEnd := false
    fNextValue := none
    bRunning := true }

/-- Animation.stop. -/
def Animation.stop (a : Animation) : Animation :=
  { a with bRequestEnd := true }

/-- Animation.pause with an explicit time argument. -/
def Animation.pause (a : Animation) (fTime : ℚ) : Animation :=
  match a.fTimePause with
  | none => { a with fTimePause := some fTime }
  | some _ => a

/-- Animation.resume with an explicit time argument: for a finite
repeat count, a resume at or before the start time just cancels the
pause, and a pause timestamp before the start time is clamped to the
start time; then fTimeStart is shifted forward by the paused
interval.  (The source does not touch fTimeEnd here.) -/
def Animation.resume (a : Animation) (fTime : ℚ) : Animation :=
  match a.fTimePause with
  | none => a
  | some p =>
      if a.fCount.isSome then
        if fTime ≤ a.fTimeStart then { a with fTimePause := none }
        else
          let p := if p < a.fTimeStart then a.fTimeStart else p
          { a with fTimePause := none, fTimeStart := a.fTimeStart + (fTime - p) }
      else
        { a with fTimePause := none, fTimeStart := a.fTimeStart + (fTime - p) }

/-- Mark the started flag and fire the onStart hook if not yet
started (the `if (!this.bStarted)` block of Animation.next). -/
def Animation.markStarted (a : Animation) : Animation :=
  if a.bStarted then a
  else { a with bStarted := true, iStartCalls := a.iStartCalls + 1 }

/-- Mark the ended flag, fire the onStop hook, unregister and clear
the running flag if not yet ended (the `if (!this.bEnded)` block of
Animation.next). -/
def Animation.markEnded (a : Animation) : Animation :=
  if a.bEnded then a
  else { a with bEnded := true, iStopCalls := a.iStopCalls + 1, bRunning := false }

/-- Animation.next: advance the state machine at time fTime and
return the updated state together with the returned progress value
(none models the JS null cached before any advance). -/
def Animation.next (a : Animation) (fTime : ℚ) : Animation × Option ℚ :=
  if a.bEnded || a.fTimePause.isSome then (a, a.fNextValue)
  else
    let bFinite := a.fCount.isSome
    let fDir := jsSignOpt a.fDirection
    if bFinite && decide (fTime ≤ a.fTimeStart) then
      let v : ℚ := if 0 ≤ fDir then 0 else 1
      ({ a with fNextValue := some v }, some v)
    else
      let a := a.markStarted
      let fPercent := (fTime - a.fTimeStart) / a.fInterval
      let fPercentFraction := Int.fract fPercent
      let fNext : ℚ :=
        if fDir = 0 then 1 - |fPercentFraction * 2 - 1|
        else if 0 < fDir then fPercentFraction
        else 1 - fPercentFraction
      if a.bRequestEnd || (bFinite && decide (fTime ≥ a.fTimeEnd.getD 0)) then
        let fNext := if !a.bRequestEnd then (if 0 < fDir then (1 : ℚ) else 0) else fNext
        let a := a.markEnded
        ({ a with fNextValue := some fNext }, some fNext)
      else
        ({ a with fNextValue := some fNext }, some fNext)

/-- Animation.onAnimation: advance via next, optionally remap through
the external time function, evaluate the curve, and deliver
onAnimate(fNextValue || 0, fValue) exactly when the eased value
differs from the cached last delivered value.  The result's second
component carries the delivered argument pair, or none when no
delivery happened. -/
def Animation.onAnimation (a : Animation) (curve : ℚ → ℚ)
    (timeFn : Option (ℚ → ℚ)) (fTime : ℚ) : Animation × Option (ℚ × ℚ) :=
  let r := a.next fTime
  let a1 := r.1
  let fNextValue : Option ℚ :=
    match timeFn with
    | some g => some (g (r.2.getD 0))
    | none => r.2
  let fValue := curve (fNextValue.getD 0)
  if a1.fLastValue ≠ some fValue then
    ({ a1 with fLastValue := some fValue }, some (fNextValue.getD 0, fValue))
  else
    (a1, none)

/-- The eased value computed by one onAnimation tick (the value that
is compared against the cached last delivered value). -/
def Animation.easedAt (a : Animation) (curve : ℚ → ℚ)
    (timeFn : Option (ℚ → ℚ)) (fTime : ℚ) : ℚ :=
  let r := a.next fTime
  let fNextValue : Option ℚ :=
    match timeFn with
    | some g => some (g (r.2.getD 0))
    | none => r.2
  curve (fNextValue.getD 0)

/-! ## Bezier curve sampler (src/modules/function.js, BezierCurveFunction) -/

/-- FRACTIONS constant: the parametric curve is sampled at
FRACTIONS + 1 parameter values. -/
def BezierCurveFunctionFractions : ℕ := 600

/-- LUT size constant: the lookup table has LUTCount + 1 cells. -/
def BezierCurveFunctionLUTCount : ℕ := 600

/-- iCount = aPoints.length >> 1. -/
def bezierCount (aPoints : List ℚ) : ℕ := aPoints.length / 2

/-- aX[i] = aPoints[i * 2]. -/
def bezierX (aPoints : List ℚ) (i : ℕ) : ℚ := aPoints.getD (i * 2) 0

/-- aY[i] = aPoints[i * 2 + 1]. -/
def bezierY (aPoints : List ℚ) (i : ℕ) : ℚ := aPoints.getD (i * 2 + 1) 0

/-- The x-sample written to aXtemp[iFraction]: with
fFraction = iFraction / FRACTIONS, the sum over all control points of
pow(1 - fFraction, iLast - iIndex) * pow(fFraction, iIndex) * aX[iIndex]
(the source applies no binomial coefficient). -/
def bezierSampleX (aPoints : List ℚ) (iFraction : ℕ) : ℚ :=
  let iLast := bezierCount aPoints - 1
  let fFraction : ℚ := (iFraction : ℚ) / (BezierCurveFunctionFractions : ℚ)
  ∑ i ∈ Finset.range (bezierCount aPoints),
    (1 - fFraction) ^ (iLast - i) * fFraction ^ i * bezierX aPoints i

/-- The y-sample written to aYtemp[iFraction]. -/
def bezierSampleY (aPoints : List ℚ) (iFraction : ℕ) : ℚ :=
  let iLast := bezierCount aPoints - 1
  let fFraction : ℚ := (iFraction : ℚ) / (BezierCurveFunctionFractions : ℚ)
  ∑ i ∈ Finset.range (bezierCount aPoints),
    (1 - fFraction) ^ (iLast - i) * fFraction ^ i * bezierY aPoints i

/-- Clamp a raw grid index into [0, LUTCount]
((i < 0) ? 0 : ((i > LUTCount) ? LUTCount : i)). -/
def lutClamp (i : ℤ) : ℕ :=
  if i < 0 then 0
  else if (BezierCurveFunctionLUTCount : ℤ) < i then BezierCurveFunctionLUTCount
  else i.toNat

/-- One fill loop of the LUT construction: every grid index in
[lo, hi] receives (iIndex / LUTCount - fX1) * fYd / fXd + fY1.  Each
write of the source loop depends only on its own index, so the loop
is a pointwise range update. -/
def lutFill (lut : ℕ → ℚ) (lo hi : ℕ) (fX1 fY1 fXd fYd : ℚ) : ℕ → ℚ :=
  fun j =>
    if lo ≤ j ∧ j ≤ hi then
      ((j : ℚ) / (BezierCurveFunctionLUTCount : ℚ) - fX1) * fYd / fXd + fY1
    else lut j

/-- One iteration of the main LUT walk at index iFraction, carrying
(fX2, fY2, iIndex2, aYlut): sample the curve at iFraction, clamp the
grid index, fill the covered segment (in either orientation), and
shift the carried sample. -/
def bezierWalkStep (aPoints : List ℚ) (iFraction : ℕ)
    (st : ℚ × ℚ × ℕ × (ℕ → ℚ)) : ℚ × ℚ × ℕ × (ℕ → ℚ) :=
  let fX2 := st.1
  let fY2 := st.2.1
  let iIndex2 := st.2.2.1
  let lut := st.2.2.2
  let fX1 := bezierSampleX aPoints iFraction
  let fY1 := bezierSampleY aPoints iFraction
  let iIndex1 := lutClamp (jsTrunc (fX1 * (BezierCurveFunctionLUTCount : ℚ)))
  let fXd := fX2 - fX1
  let fYd := fY2 - fY1
  let lut :=
    if iIndex1 ≤ iIndex2 then lutFill lut iIndex1 iIndex2 fX1 fY1 fXd fYd
    else lutFill lut iIndex2 iIndex1 fX1 fY1 fXd fYd
  (fX1, fY1, iIndex1, lut)

/-- The main LUT walk, iFraction descending from the given index down
to 0 (the source loop runs from FRACTIONS - 1 down to 0). -/
def bezierWalk (aPoints : List ℚ) :
    ℕ → ℚ × ℚ × ℕ × (ℕ → ℚ) → ℚ × ℚ × ℕ × (ℕ → ℚ)
  | 0, st => bezierWalkStep aPoints 0 st
  | k + 1, st => bezierWalk aPoints k (bezierWalkStep aPoints (k + 1) st)

/-- The complete aYlut table built by the BezierCurveFunction
constructor: prefill with aYtemp[0], tail-fill [iIndex2, LUTCount]
with the last sample when iIndex2 < LUTCount, run the main walk from
FRACTIONS - 1 down to 0, then force cells 0 and LUTCount to the end
samples. -/
def bezierLut (aPoints : List ℚ) : ℕ → ℚ :=
  let lutInit : ℕ → ℚ := fun _ => bezierSampleY aPoints 0
  let fX2 := bezierSampleX aPoints BezierCurveFunctionFractions
  let fY2 := bezierSampleY aPoints BezierCurveFunctionFractions
  let iIndex2 := lutClamp (jsTrunc (fX2 * (BezierCurveFunctionLUTCount : ℚ)))
  let lutTail : ℕ → ℚ :=
    if iIndex2 < BezierCurveFunctionLUTCount then
      fun j => if iIndex2 ≤ j ∧ j ≤ BezierCurveFunctionLUTCount then fY2 else lutInit j
    else lutInit
  let st := bezierWalk aPoints (BezierCurveFunctionFractions - 1) (fX2, fY2, iIndex2, lutTail)
  fun j =>
    if j = 0 then bezierSampleY aPoints 0
    else if j = BezierCurveFunctionLUTCount then
      bezierSampleY aPoints BezierCurveFunctionFractions
    else st.2.2.2 j

/-- BezierCurveFunction.getY: round the query onto the grid, clamp,
and return the stored LUT value. -/
def bezierGetY (aPoints : List ℚ) (fX : ℚ) : ℚ :=
  let i : ℤ := round (fX * (BezierCurveFunctionLUTCount : ℚ))
  let iLut : ℕ :=
    if i < 0 then 0
    else if (BezierCurveFunctionLUTCount : ℤ) < i then BezierCurveFunctionLUTCount
    else i.toNat
  bezierLut aPoints iLut

/-- Control points of CurveEaseIn. -/
def aFuncionPointsEaseIn : List ℚ := [0, 0, 42/100, 0, 1, 1, 1, 1]

/-- Control points of CurveEaseOut. -/
def aFuncionPointsEaseOut : List ℚ := [0, 0, 0, 0, 58/100, 1, 1, 1]

/-- Control points of CurveEaseInOut. -/
def aFuncionPointsEaseInOut : List ℚ := [0, 0, 42/100, 0, 58/100, 1, 1, 1]

/-- Modelled from the spec: the Bernstein-weighted x-sample the spec
describes for the construction stage, with the binomial coefficient
C(n,i) that the source omits; kept only as the refinement comparison
for the sampling claim. -/
def bernsteinSampleX (aPoints : List ℚ) (iFraction : ℕ) : ℚ :=
  let n := bezierCount aPoints - 1
  let t : ℚ := (iFraction : ℚ) / (BezierCurveFunctionFractions : ℚ)
  ∑ i ∈ Finset.range (bezierCount aPoints),
    (n.choose i : ℚ) * t ^ i * (1 - t) ^ (n - i) * bezierX aPoints i

/-- Modelled from the spec: the Bernstein-weighted y-sample. -/
def bernsteinSampleY (aPoints : List ℚ) (iFraction : ℕ) : ℚ :=
  let n := bezierCount aPoints - 1
  let t : ℚ := (iFraction : ℚ) / (BezierCurveFunctionFractions : ℚ)
  ∑ i ∈ Finset.range (bezierCount aPoints),
    (n.choose i : ℚ) * t ^ i * (1 - t) ^ (n - i) * bezierY aPoints i

/-! ## Frame clock / scheduler (module-level state of the animation
globals module).  The MessagePool listener set is modelled by a
listener count (MessagePool.has is listeners > 0); the platform
frame-request primitive is modelled by a count of outstanding
in-flight requests plus a total of all requests ever issued. -/

/-- Shared clock state: running flag (visibility gated), the "frame
already scheduled" flag bInvalidAnimation, the registered listener
count, the number of in-flight platform frame requests, the total
number of requests ever issued, and the last-tick timestamp (0 is the
"no prior frame" sentinel). -/
structure Clock where
  bRunning : Bool
  bInvalidAnimation : Bool
  listeners : ℕ
  outstanding : ℕ
  requestsIssued : ℕ
  iLastTime : ℚ
  deriving DecidableEq, Repr

/-- Module-load state: not running, no frame scheduled, no listeners. -/
def Clock.init : Clock :=
  { bRunning := false
    bInvalidAnimation := false
    listeners := 0
    outstanding := 0
    requestsIssued := 0
    iLastTime := 0 }

/-- requestAnimation: when running and no frame is already scheduled,
either issue exactly one platform frame request (when a listener is
present) or clear the last-tick sentinel. -/
def requestAnimation (c : Clock) : Clock :=
  if c.bRunning && !c.bInvalidAnimation then
    if 0 < c.listeners then
      { c with
        bInvalidAnimation := true
        outstanding := c.outstanding + 1
        requestsIssued := c.requestsIssued + 1 }
    else { c with iLastTime := 0 }
  else c

/-- registerAnimation: register the handler, then requestAnimation. -/
def registerAnimation (c : Clock) : Clock :=
  requestAnimation { c with listeners := c.listeners + 1 }

/-- unregisterAnimation: only unregisters the handler. -/
def unregisterAnimation (c : Clock) : Clock :=
  { c with listeners := c.listeners - 1 }

/-- The module-level onAnimation frame callback: the platform
consumes the in-flight request and invokes it; it records the tick,
dispatches to the listeners (external), clears the scheduled flag and
re-requests. -/
def onAnimation (c : Clock) (now : ℚ) : Clock :=
  requestAnimation
    { c with
      outstanding := c.outstanding - 1
      iLastTime := now
      bInvalidAnimation := false }

/-- evShow handler: resume the clock and restart the request loop. -/
def onAnimationResume (c : Clock) : Clock :=
  if !c.bRunning then requestAnimation { c with bRunning := true } else c

/-- evHide handler: stop the clock (in-flight requests still fire). -/
def onAnimationPause (c : Clock) : Clock :=
  if c.bRunning then { c with bRunning := false } else c

/-- One step of the clock transition system: a listener registration
or unregistration, a platform frame delivery (only when a request is
in flight), or a visibility change. -/
inductive ClockStep : Clock → Clock → Prop
  | register (c : Clock) : ClockStep c (registerAnimation c)
  | unregister (c : Clock) : ClockStep c (unregisterAnimation c)
  | frame (c : Clock) (now : ℚ) : 0 < c.outstanding → ClockStep c (onAnimation c now)
  | evShow (c : Clock) : ClockStep c (onAnimationResume c)
  | evHide (c : Clock) : ClockStep c (onAnimationPause c)

/-- The scheduling invariant: a frame request is in flight exactly
when the "frame already scheduled" flag is set, so there is never
more than one outstanding request. -/
def ClockInv (c : Clock) : Prop :=
  c.outstanding = if c.bInvalidAnimation then 1 else 0


/-- A cached-or-returned optional progress value lies in [0,1]
(vacuously true for the null placeholder). -/
def inUnitInterval (o : Option ℚ) : Prop := ∀ v, o = some v → 0 ≤ v ∧ v ≤ 1

/-! ## Theorems about the claims -/

set_option maxRecDepth 40000

/-! Projection lemmas for the started/ended marking helpers. -/

@[simp] theorem tv_markStarted_fTimeStart (tv : TimeValue) :
    tv.markStarted.fTimeStart = tv.fTimeStart := by
  unfold TimeValue.markStarted; split_ifs <;> rfl

@[simp] theorem tv_markStarted_fTimeEnd (tv : TimeValue) :
    tv.markStarted.fTimeEnd = tv.fTimeEnd := by
  unfold TimeValue.markStarted; split_ifs <;> rfl

@[simp] theorem tv_markStarted_fDuration (tv : TimeValue) :
    tv.markStarted.fDuration = tv.fDuration := by
  unfold TimeValue.markStarted; split_ifs <;> rfl

@[simp] theorem tv_markStarted_fTimePause (tv : TimeValue) :
    tv.markStarted.fTimePause = tv.fTimePause := by
  unfold TimeValue.markStarted; split_ifs <;> rfl

@[simp] theorem tv_markStarted_bEnded (tv : TimeValue) :
    tv.markStarted.bEnded = tv.bEnded := by
  unfold TimeValue.markStarted; split_ifs <;> rfl

@[simp] theorem tv_markStarted_bRequestEnd (tv : TimeValue) :
    tv.markStarted.bRequestEnd = tv.bRequestEnd := by
  unfold TimeValue.markStarted; split_ifs <;> rfl

@[simp] theorem tv_markStarted_fLastValue (tv : TimeValue) :
    tv.markStarted.fLastValue = tv.fLastValue := by
  unfold TimeValue.markStarted; split_ifs <;> rfl

@[simp] theorem tv_markStarted_iStopCalls (tv : TimeValue) :
    tv.markStarted.iStopCalls = tv.iStopCalls := by
  unfold TimeValue.markStarted; split_ifs <;> rfl

@[simp] theorem tv_markStarted_bStarted (tv : TimeValue) :
    tv.markStarted.bStarted = true := by
  unfold TimeValue.markStarted; split_ifs with h <;> simp_all

@[simp] theorem tv_markEnded_fLastValue (tv : TimeValue) :
    tv.markEnded.fLastValue = tv.fLastValue := by
  unfold TimeValue.markEnded; split_ifs <;> rfl

@[simp] theorem tv_markEnded_bEnded (tv : TimeValue) :
    tv.markEnded.bEnded = true := by
  unfold TimeValue.markEnded; split_ifs with h <;> simp_all

@[simp] theorem anim_markStarted_fTimeStart (a : Animation) :
    a.markStarted.fTimeStart = a.fTimeStart := by
  unfold Animation.markStarted; split_ifs <;> rfl

@[simp] theorem anim_markStarted_fTimeEnd (a : Animation) :
    a.markStarted.fTimeEnd = a.fTimeEnd := by
  unfold Animation.markStarted; split_ifs <;> rfl

@[simp] theorem anim_markStarted_fTimePause (a : Animation) :
    a.markStarted.fTimePause = a.fTimePause := by
  unfold Animation.markStarted; split_ifs <;> rfl

@[simp] theorem anim_markStarted_fInterval (a : Animation) :
    a.markStarted.fInterval = a.fInterval := by
  unfold Animation.markStarted; split_ifs <;> rfl

@[simp] theorem anim_markStarted_fDirection (a : Animation) :
    a.markStarted.fDirection = a.fDirection := by
  unfold Animation.markStarted; split_ifs <;> rfl

@[simp] theorem anim_markStarted_fCount (a : Animation) :
    a.markStarted.fCount = a.fCount := by
  unfold Animation.markStarted; split_ifs <;> rfl

@[simp] theorem anim_markStarted_bEnded (a : Animation) :
    a.markStarted.bEnded = a.bEnded := by
  unfold Animation.markStarted; split_ifs <;> rfl

@[simp] theorem anim_markStarted_bRequestEnd (a : Animation) :
    a.markStarted.bRequestEnd = a.bRequestEnd := by
  unfold Animation.markStarted; split_ifs <;> rfl

@[simp] theorem anim_markStarted_fNextValue (a : Animation) :
    a.markStarted.fNextValue = a.fNextValue := by
  unfold Animation.markStarted; split_ifs <;> rfl

@[simp] theorem anim_markStarted_fLastValue (a : Animation) :
    a.markStarted.fLastValue = a.fLastValue := by
  unfold Animation.markStarted; split_ifs <;> rfl

@[simp] theorem anim_markStarted_iStopCalls (a : Animation) :
    a.markStarted.iStopCalls = a.iStopCalls := by
  unfold Animation.markStarted; split_ifs <;> rfl

@[simp] theorem anim_markStarted_bStarted (a : Animation) :
    a.markStarted.bStarted = true := by
  unfold Animation.markStarted; split_ifs with h <;> simp_all

@[simp] theorem anim_markEnded_fNextValue (a : Animation) :
    a.markEnded.fNextValue = a.fNextValue := by
  unfold Animation.markEnded; split_ifs <;> rfl

@[simp] theorem anim_markEnded_iStartCalls (a : Animation) :
    a.markEnded.iStartCalls = a.iStartCalls := by
  unfold Animation.markEnded; split_ifs <;> rfl

@[simp] theorem anim_markEnded_bEnded (a : Animation) :
    a.markEnded.bEnded = true := by
  unfold Animation.markEnded; split_ifs with h <;> simp_all

@[simp] theorem anim_markStarted_iStartCalls_of_not_started (a : Animation)
    (h : a.bStarted = false) : a.markStarted.iStartCalls = a.iStartCalls + 1 := by
  unfold Animation.markStarted; simp [h]

@[simp] theorem anim_markEnded_iStopCalls_of_not_ended (a : Animation)
    (h : a.bEnded = false) : a.markEnded.iStopCalls = a.iStopCalls + 1 := by
  unfold Animation.markEnded; simp [h]


/-- Claim C1: the construction-stage sampling of BezierCurveFunction
does not use the Bernstein-polynomial weighted sum: the weight of
control point i is pow(1-t, n-i) * pow(t, i) with no binomial
coefficient C(n,i).  At sample index 300 (t = 1/2) of the
CurveEaseInOut control points, the code's x-sample is 1/4 while the
Bernstein sum the claim describes gives 1/2. -/
theorem bezier_sampling_lacks_binomial :
    bezierSampleX aFuncionPointsEaseInOut 300 = 1/4 ∧
    bernsteinSampleX aFuncionPointsEaseInOut 300 = 1/2 := by
  constructor <;> with_unfolding_all decide

/-- Claim C4: CurveEaseInOut.getY(0.5) exceeds 0.5 + 1/600 (the
computed value is 56386823/104738675, about 0.5384), so it differs
from 0.5 by more than the LUT quantization tolerance 1/600 and the
curve does not reproduce the standard CSS cubic-bezier ease-in-out
output. -/
theorem easeInOut_half_off_by_more_than_lut_quantum :
    1/2 + 1/600 < bezierGetY aFuncionPointsEaseInOut (1/2) ∧
    |bezierGetY aFuncionPointsEaseInOut (1/2) - 1/2| > 1/600 := by
  have h : bezierGetY aFuncionPointsEaseInOut (1/2)
      = bezierLut aFuncionPointsEaseInOut 300 := by
    unfold bezierGetY
    norm_num [BezierCurveFunctionLUTCount, round_eq]
    congr 1
  have h2 : 1/2 + 1/600 < bezierLut aFuncionPointsEaseInOut 300 := by
    with_unfolding_all decide
  rw [h]
  refine ⟨h2, ?_⟩
  rw [abs_of_pos (by linarith)]
  linarith

/-- Claim C2: resume does not shift the end time.  A TimeValue with
start 0 and duration 100, paused at 50 and resumed at 100, keeps
fTimeEnd = 100, so an advance at 120 (before the shifted end 150 the
claim describes) returns the terminal value 1 and ends the instance,
while an unpaused instance at the equivalent excised elapsed time 70
returns 7/10; the Animation state machine behaves the same way. -/
theorem resume_does_not_shift_end :
    ((TimeValue.init 0 100).pause 50 |>.resume 100).fTimeEnd = 100 ∧
    ((TimeValue.init 0 100).pause 50 |>.resume 100).fTimeStart = 50 ∧
    (TimeForward ((TimeValue.init 0 100).pause 50 |>.resume 100) 120).2 = some 1 ∧
    (TimeForward ((TimeValue.init 0 100).pause 50 |>.resume 100) 120).1.bEnded = true ∧
    (TimeForward (TimeValue.init 0 100) 70).2 = some (7/10) ∧
    ((Animation.init.start 0 100 (some 1) (some 1)).pause 50 |>.resume 100).fTimeEnd
      = some 100 ∧
    (((Animation.init.start 0 100 (some 1) (some 1)).pause 50 |>.resume 100).next 120).2
      = some 1 ∧
    (((Animation.init.start 0 100 (some 1) (some 1)).pause 50 |>.resume 100).next
      120).1.bEnded = true ∧
    ((Animation.init.start 0 100 (some 1) (some 1)).next 70).2 = some (7/10) := by
  with_unfolding_all decide

/-- Claim C3 counterexample: an Animation started with start 0,
interval 100, direction +1, count 2, stopped and then advanced at
t = 50 mid-cycle, terminates with the mid-cycle value 1/2 (not a
forced endpoint 0 or 1). -/
theorem stop_request_keeps_midcycle_value :
    ((Animation.init.start 0 100 (some 1) (some 2)).stop.next 50).2 = some (1/2) ∧
    ((Animation.init.start 0 100 (some 1) (some 2)).stop.next 50).1.bEnded = true ∧
    ((1 : ℚ)/2 ≠ 0 ∧ (1 : ℚ)/2 ≠ 1) := by
  refine ⟨?_, ?_, by norm_num⟩ <;> with_unfolding_all decide

/-- Claim C5 counterexample: an unbounded (infinite-count) Animation
with reverse direction, started at 0 with interval 100 and advanced
at t = 100 (fraction 0), returns exactly 1 — a value outside [0,1) —
while not at any terminal endpoint (the instance is not ended). -/
theorem unbounded_reverse_returns_one :
    ((Animation.init.start 0 100 (some (-1)) none).next 100).2 = some 1 ∧
    ((Animation.init.start 0 100 (some (-1)) none).next 100).1.bEnded = false := by
  with_unfolding_all decide

/-- Claim C6: no construction-time validation exists.  Starting an
Animation with interval 0 is accepted (the state records fInterval 0
and runs), and constructing a BezierCurveFunction from an empty
control-point list is accepted, yielding zero control points and a
getY that returns 0 instead of failing. -/
theorem no_construction_validation :
    (Animation.init.start 0 0 (some 1) (some 1)).fInterval = 0 ∧
    (Animation.init.start 0 0 (some 1) (some 1)).bRunning = true ∧
    bezierCount ([] : List ℚ) = 0 ∧
    bezierGetY ([] : List ℚ) (1/2) = 0 := by
  refine ⟨?_, ?_, ?_, ?_⟩
  · with_unfolding_all decide
  · with_unfolding_all decide
  · with_unfolding_all decide
  · have h : bezierGetY ([] : List ℚ) (1/2) = bezierLut ([] : List ℚ) 300 := by
      unfold bezierGetY
      norm_num [BezierCurveFunctionLUTCount, round_eq]
      congr 1
    rw [h]
    with_unfolding_all decide

theorem TimeForward_mem_unit (tv : TimeValue) (t : ℚ)
    (h1 : 0 < tv.fDuration) (h2 : tv.fTimeEnd ≤ tv.fTimeStart + tv.fDuration)
    (h3 : inUnitInterval tv.fLastValue) :
    inUnitInterval (TimeForward tv t).2 := by
  unfold TimeForward
  split_ifs with hA hB
  · exact h3
  · intro v hv; injection hv with hv; rw [← hv]; norm_num
  · intro v hv
    simp only at hv
    split_ifs at hv with hC
    · injection hv with hv; rw [← hv]; norm_num
    · injection hv with hv; rw [← hv]
      simp only [tv_markStarted_fTimeStart, tv_markStarted_fDuration,
        tv_markStarted_fTimeEnd, tv_markStarted_bRequestEnd,
        Bool.or_eq_true, not_or, decide_eq_true_eq, ge_iff_le, not_le] at hC ⊢
      push_neg at hB
      constructor
      · exact div_nonneg (by linarith) h1.le
      · rw [div_le_one h1]; linarith [hC.1]

theorem TimeReverse_mem_unit (tv : TimeValue) (t : ℚ)
    (h1 : 0 < tv.fDuration) (h2 : tv.fTimeEnd ≤ tv.fTimeStart + tv.fDuration)
    (h3 : inUnitInterval tv.fLastValue) :
    inUnitInterval (TimeReverse tv t).2 := by
  unfold TimeReverse
  split_ifs with hA hB
  · exact h3
  · intro v hv; injection hv with hv; rw [← hv]; norm_num
  · intro v hv
    simp only at hv
    split_ifs at hv with hC
    · injection hv with hv; rw [← hv]; norm_num
    · injection hv with hv; rw [← hv]
      simp only [tv_markStarted_fTimeStart, tv_markStarted_fDuration,
        tv_markStarted_fTimeEnd, tv_markStarted_bRequestEnd,
        Bool.or_eq_true, not_or, decide_eq_true_eq, ge_iff_le, not_le] at hC ⊢
      push_neg at hB
      constructor
      · exact div_nonneg (by linarith [hC.1]) h1.le
      · rw [div_le_one h1]; linarith

theorem TimeForwardLoop_mem_unit (tv : TimeValue) (t : ℚ)
    (h3 : inUnitInterval tv.fLastValue) :
    inUnitInterval (TimeForwardLoop tv t).2 := by
  unfold TimeForwardLoop
  split_ifs with hA hB
  · exact h3
  · intro v hv; injection hv with hv; rw [← hv]; norm_num
  · intro v hv
    simp only at hv
    injection hv with hv; rw [← hv]
    exact ⟨Int.fract_nonneg _, (Int.fract_lt_one _).le⟩

theorem TimeReverseLoop_mem_unit (tv : TimeValue) (t : ℚ)
    (h3 : inUnitInterval tv.fLastValue) :
    inUnitInterval (TimeReverseLoop tv t).2 := by
  unfold TimeReverseLoop
  split_ifs with hA hB
  · exact h3
  · intro v hv; injection hv with hv; rw [← hv]; norm_num
  · intro v hv
    simp only at hv
    injection hv with hv; rw [← hv]
    have g1 := Int.fract_nonneg ((t - tv.markStarted.fTimeStart) / tv.markStarted.fDuration)
    have g2 := Int.fract_lt_one ((t - tv.markStarted.fTimeStart) / tv.markStarted.fDuration)
    constructor <;> linarith

theorem TimePingPongLoop_mem_unit (tv : TimeValue) (t : ℚ)
    (h3 : inUnitInterval tv.fLastValue) :
    inUnitInterval (TimePingPongLoop tv t).2 := by
  unfold TimePingPongLoop
  split_ifs with hA hB
  · exact h3
  · intro v hv; injection hv with hv; rw [← hv]; norm_num
  · intro v hv
    simp only at hv
    injection hv with hv; rw [← hv]
    have g1 := Int.fract_nonneg ((t - tv.markStarted.fTimeStart) / tv.markStarted.fDuration)
    have g2 := Int.fract_lt_one ((t - tv.markStarted.fTimeStart) / tv.markStarted.fDuration)
    have g3 : |Int.fract ((t - tv.markStarted.fTimeStart) / tv.markStarted.fDuration) * 2 - 1| ≤ 1 :=
      abs_le.mpr ⟨by linarith, by linarith⟩
    have g4 : 0 ≤ |Int.fract ((t - tv.markStarted.fTimeStart) / tv.markStarted.fDuration) * 2 - 1| :=
      abs_nonneg _
    constructor <;> linarith

theorem Animation_next_mem_unit (a : Animation) (t : ℚ)
    (hc : inUnitInterval a.fNextValue) :
    inUnitInterval (a.next t).2 := by
  unfold Animation.next
  split_ifs with hA
  · exact hc
  · intro v hv
    simp only at hv
    have p1 := Int.fract_nonneg ((t - a.markStarted.fTimeStart) / a.markStarted.fInterval)
    have p2 := Int.fract_lt_one ((t - a.markStarted.fTimeStart) / a.markStarted.fInterval)
    have p3 : |Int.fract ((t - a.markStarted.fTimeStart) / a.markStarted.fInterval) * 2 - 1| ≤ 1 :=
      abs_le.mpr ⟨by linarith, by linarith⟩
    have p4 : 0 ≤ |Int.fract ((t - a.markStarted.fTimeStart) / a.markStarted.fInterval) * 2 - 1| :=
      abs_nonneg _
    split_ifs at hv <;> (injection hv with hv; rw [← hv]) <;>
      exact ⟨by linarith, by linarith⟩

theorem Animation_next_unbounded_forward (a : Animation) (t : ℚ)
    (hcnt : a.fCount = none) (hdir : 0 < jsSignOpt a.fDirection)
    (hend : a.bEnded = false) (hp : a.fTimePause = none) :
    (a.next t).2 = some (Int.fract ((t - a.fTimeStart) / a.fInterval)) := by
  unfold Animation.next
  cases hb : a.bRequestEnd <;>
    simp [hcnt, hend, hp, hdir, ne_of_gt hdir, hb]

/-- Claim C5 (amended): with positive duration/interval, a
well-formed end time, and a well-formed cached value, every value
returned by the five TimeFunctions and by Animation.next lies in
[0,1]; for an unbounded forward-direction Animation the non-cached
return is exactly the fractional part of elapsed/interval, which lies
in [0,1). -/
theorem progress_in_unit_interval (tv : TimeValue) (a : Animation) (t u : ℚ)
    (h1 : 0 < tv.fDuration) (h2 : tv.fTimeEnd ≤ tv.fTimeStart + tv.fDuration)
    (h3 : inUnitInterval tv.fLastValue)
    (h4 : 0 < a.fInterval) (h5 : inUnitInterval a.fNextValue) :
    inUnitInterval (TimeForward tv t).2 ∧
    inUnitInterval (TimeReverse tv t).2 ∧
    inUnitInterval (TimeForwardLoop tv t).2 ∧
    inUnitInterval (TimeReverseLoop tv t).2 ∧
    inUnitInterval (TimePingPongLoop tv t).2 ∧
    inUnitInterval (a.next u).2 ∧
    (a.fCount = none → 0 < jsSignOpt a.fDirection → a.bEnded = false →
      a.fTimePause = none →
      (a.next u).2 = some (Int.fract ((u - a.fTimeStart) / a.fInterval)) ∧
      0 ≤ Int.fract ((u - a.fTimeStart) / a.fInterval) ∧
      Int.fract ((u - a.fTimeStart) / a.fInterval) < 1) :=
  ⟨TimeForward_mem_unit tv t h1 h2 h3, TimeReverse_mem_unit tv t h1 h2 h3,
   TimeForwardLoop_mem_unit tv t h3, TimeReverseLoop_mem_unit tv t h3,
   TimePingPongLoop_mem_unit tv t h3, Animation_next_mem_unit a u h5,
   fun hc hd he hp =>
     ⟨Animation_next_unbounded_forward a u hc hd he hp,
      Int.fract_nonneg _, Int.fract_lt_one _⟩⟩

/-- Claim C5 witness at concrete inputs. -/
theorem progress_in_unit_interval_witness :
    inUnitInterval (TimeForward (TimeValue.init 0 100) 30).2 ∧
    ((Animation.init.start 0 100 (some 1) none).next 250).2 =
      some (Int.fract ((250 - (Animation.init.start 0 100 (some 1) none).fTimeStart) /
        (Animation.init.start 0 100 (some 1) none).fInterval)) := by
  have h := progress_in_unit_interval (TimeValue.init 0 100)
      (Animation.init.start 0 100 (some 1) none) 30 250
      (by norm_num [TimeValue.init])
      (by norm_num [TimeValue.init])
      (by intro v hv; simp [TimeValue.init] at hv)
      (by norm_num [Animation.start])
      (by intro v hv; simp [Animation.start] at hv)
  exact ⟨h.1, ((h.2.2.2.2.2.2) rfl (by norm_num [Animation.start, jsSignOpt, jsSign])
    rfl rfl).1⟩

/-- Claim C3 (amended): when a finite-count Animation reaches or
passes its configured end time with no pending stop request, the
returned progress is forced to exactly 1 when the direction sign is
positive and exactly 0 otherwise, before the stop transition fires
(bEnded set, onStop fired exactly once). -/
theorem finite_end_forces_endpoint (a0 : Animation) (s I c t : ℚ) (d : Option ℚ)
    (hI : 0 < I) (hc : c ≠ 0) (ht : s + I * |c| ≤ t) :
    (((a0.start s I d (some c)).next t).2
        = some (if 0 < jsSignOpt d then (1 : ℚ) else 0)) ∧
    ((a0.start s I d (some c)).next t).1.bEnded = true ∧
    ((a0.start s I d (some c)).next t).1.iStopCalls = a0.iStopCalls + 1 := by
  have habs : 0 < I * |c| := mul_pos hI (abs_pos.mpr hc)
  have hts : ¬ (t ≤ s) := by push_neg; linarith
  unfold Animation.next Animation.start
  simp [hts, ht]

/-- Claim C3 witness at concrete inputs. -/
theorem finite_end_forces_endpoint_witness :
    ((Animation.init.start 0 100 (some 1) (some 2)).next 250).2 = some 1 ∧
    ((Animation.init.start 0 100 (some 1) (some 2)).next 250).1.bEnded = true := by
  have h := finite_end_forces_endpoint Animation.init 0 100 2 250 (some 1)
    (by norm_num) (by norm_num) (by norm_num)
  refine ⟨?_, h.2.1⟩
  rw [h.1]
  norm_num [jsSignOpt, jsSign]

@[simp] theorem anim_markEnded_fLastValue (a : Animation) :
    a.markEnded.fLastValue = a.fLastValue := by
  unfold Animation.markEnded; split_ifs <;> rfl

/-- Animation.next never touches the cached last delivered eased
value. -/
theorem Animation_next_fLastValue (a : Animation) (t : ℚ) :
    (a.next t).1.fLastValue = a.fLastValue := by
  unfold Animation.next
  split_ifs with hA
  · rfl
  · simp only
    split_ifs <;> simp

/-- Specification of one non-terminal ping-pong advance: the returned
value is the triangular wave of the fractional elapsed fraction, and
the configuration fields and non-terminal flags are preserved. -/
theorem Animation_next_pingpong (a : Animation) (t : ℚ)
    (hdir : a.fDirection = none) (hend : a.bEnded = false) (hp : a.fTimePause = none)
    (hreq : a.bRequestEnd = false)
    (hclamp : a.fCount.isSome = true → ¬ t ≤ a.fTimeStart)
    (hbound : a.fCount.isSome = true → ¬ t ≥ a.fTimeEnd.getD 0) :
    (a.next t).2 = some (1 - |Int.fract ((t - a.fTimeStart) / a.fInterval) * 2 - 1|) ∧
    (a.next t).1.fDirection = none ∧ (a.next t).1.fCount = a.fCount ∧
    (a.next t).1.bEnded = false ∧ (a.next t).1.fTimePause = none ∧
    (a.next t).1.bRequestEnd = false ∧
    (a.next t).1.fTimeStart = a.fTimeStart ∧ (a.next t).1.fInterval = a.fInterval ∧
    (a.next t).1.fTimeEnd = a.fTimeEnd := by
  unfold Animation.next
  rcases hcs : a.fCount with _ | c
  · simp [hdir, hend, hp, hreq, jsSignOpt, hcs]
  · have t1 := hclamp (by simp [hcs])
    have t2 := hbound (by simp [hcs])
    simp [hdir, hend, hp, hreq, jsSignOpt, hcs, t1, t2]

/-- Claim C8: for an Animation in ping-pong mode (NaN direction
sentinel), a non-terminal advance past the start returns
1 - |2 * fract((t - start)/interval) - 1|, and advances at
start + interval/4 and start + 3*interval/4 both return the equal
value 1/2. -/
theorem pingpong_triangular_wave (a0 : Animation) (s I t : ℚ) (cnt : Option ℚ)
    (hI : 0 < I) (hts : s < t)
    (hbound : ∀ c, cnt = some c → t < s + I * |c|) :
    (((a0.start s I none cnt).next t).2
        = some (1 - |Int.fract ((t - s) / I) * 2 - 1|)) ∧
    ((a0.start s I none none).next (s + I/4)).2 = some (1/2) ∧
    ((((a0.start s I none none).next (s + I/4)).1).next (s + 3*I/4)).2 = some (1/2) := by
  have hIne : I ≠ 0 := ne_of_gt hI
  have h := Animation_next_pingpong (a0.start s I none none) (s + I/4)
    (by simp [Animation.start]) (by simp [Animation.start]) (by simp [Animation.start])
    (by simp [Animation.start]) (by simp [Animation.start]) (by simp [Animation.start])
  refine ⟨?_, ?_, ?_⟩
  · have h1 := Animation_next_pingpong (a0.start s I none cnt) t
      (by simp [Animation.start]) (by simp [Animation.start]) (by simp [Animation.start])
      (by simp [Animation.start])
      (by simp only [Animation.start, Option.isSome_map]
          rcases cnt with _ | c
          · simp
          · intro _
            have := hbound c rfl
            push_neg
            simpa [Animation.start] using by linarith)
      (by simp only [Animation.start]
          rcases cnt with _ | c
          · simp
          · intro _
            have := hbound c rfl
            simp only [Option.map_some, Option.getD_some, ge_iff_le, not_le]
            simpa [Animation.start] using this)
    simpa [Animation.start] using h1.1
  · rw [h.1]
    simp only [Animation.start]
    rw [show s + I/4 - s = I/4 by ring]
    rw [show I/4 / I = 1/4 by field_simp; ring]
    rw [show Int.fract ((1:ℚ)/4) = 1/4 from Int.fract_eq_self.mpr (by norm_num)]
    rw [show (1:ℚ)/4*2 - 1 = -(1/2) by norm_num, abs_neg,
      abs_of_pos (by norm_num : (0:ℚ) < 1/2)]
    norm_num
  · have h2 := Animation_next_pingpong (((a0.start s I none none).next (s + I/4)).1)
      (s + 3*I/4) h.2.1 h.2.2.2.1 h.2.2.2.2.1 h.2.2.2.2.2.1
      (by intro hh; rw [h.2.2.1] at hh; simp [Animation.start] at hh)
      (by intro hh; rw [h.2.2.1] at hh; simp [Animation.start] at hh)
    rw [h2.1, h.2.2.2.2.2.2.1, h.2.2.2.2.2.2.2.1]
    simp only [Animation.start]
    rw [show s + 3*I/4 - s = 3*I/4 by ring]
    rw [show 3*I/4 / I = 3/4 by field_simp; ring]
    rw [show Int.fract ((3:ℚ)/4) = 3/4 from Int.fract_eq_self.mpr (by norm_num)]
    rw [show (3:ℚ)/4*2 - 1 = 1/2 by norm_num,
      abs_of_pos (by norm_num : (0:ℚ) < 1/2)]
    norm_num

/-- Claim C10: for an infinite repeat count the pre-start clamp is
skipped: the first next(t) fires onStart even at t at-or-before the
start time, and returns the direction formula applied to the
fractional part of the (negative or zero) elapsed fraction, which
still lies in [0,1). -/
theorem infinite_count_prestart (a0 : Animation) (s I t : ℚ) (d : Option ℚ)
    (hI : 0 < I) (ht : t ≤ s) :
    ((a0.start s I d none).next t).1.bStarted = true ∧
    ((a0.start s I d none).next t).1.iStartCalls = a0.iStartCalls + 1 ∧
    ((a0.start s I d none).next t).2 =
      some (if jsSignOpt d = 0 then 1 - |Int.fract ((t - s) / I) * 2 - 1|
            else if 0 < jsSignOpt d then Int.fract ((t - s) / I)
            else 1 - Int.fract ((t - s) / I)) ∧
    0 ≤ Int.fract ((t - s) / I) ∧ Int.fract ((t - s) / I) < 1 := by
  refine ⟨?_, ?_, ?_, Int.fract_nonneg _, Int.fract_lt_one _⟩ <;>
    (unfold Animation.next
     cases hb : (a0.start s I d none).bRequestEnd <;>
       simp [Animation.start, hb, Animation.markStarted] at hb ⊢)

/-- Claim C10 witness at concrete inputs (advance at t equal to the
start time, where a finite instance would clamp). -/
theorem infinite_count_prestart_witness :
    ((Animation.init.start 50 100 (some 1) none).next 50).1.bStarted = true ∧
    ((Animation.init.start 50 100 (some 1) none).next 50).1.iStartCalls =
      Animation.init.iStartCalls + 1 := by
  have h := infinite_count_prestart Animation.init 50 100 50 (some 1)
    (by norm_num) (by norm_num)
  exact ⟨h.1, h.2.1⟩

/-- Claim C9: one onAnimation tick delivers onAnimate exactly when
the newly computed eased value differs from the cached last delivered
eased value; a first tick (no cached value) always delivers, and a
delivery records the delivered eased value in the cache. -/
theorem onAnimate_iff_eased_changed (a : Animation) (curve : ℚ → ℚ)
    (g : Option (ℚ → ℚ)) (t : ℚ) :
    (((a.onAnimation curve g t).2).isSome = true ↔
      a.fLastValue ≠ some (a.easedAt curve g t)) ∧
    (a.fLastValue = none → ((a.onAnimation curve g t).2).isSome = true) ∧
    (((a.onAnimation curve g t).2).isSome = true →
      (a.onAnimation curve g t).1.fLastValue = some (a.easedAt curve g t)) := by
  unfold Animation.onAnimation Animation.easedAt
  simp only
  rw [Animation_next_fLastValue]
  split_ifs with h
  · simp [h]
  · simp only [ne_eq, not_not] at h
    simp [h]

/-- Claim C9 witness: a first tick (no cached eased value) delivers. -/
theorem onAnimate_iff_eased_changed_witness :
    ((Animation.init.onAnimation (fun x => x) none 5).2).isSome = true :=
  (onAnimate_iff_eased_changed Animation.init (fun x => x) none 5).2.1 rfl

/-- Claim C7 (amended): registering a listener while the clock is
running, no frame is already scheduled, and zero listeners are
present issues exactly one platform frame request; registering while
a frame is already scheduled issues zero additional requests; the
invariant "outstanding requests = 1 exactly when the scheduled flag
is set" holds initially and is preserved by every clock step, so at
most one request is ever outstanding. -/
theorem scheduler_single_request :
    (∀ c : Clock, c.bRunning = true → c.bInvalidAnimation = false →
      c.listeners = 0 →
      (registerAnimation c).requestsIssued = c.requestsIssued + 1 ∧
      (registerAnimation c).outstanding = c.outstanding + 1 ∧
      (registerAnimation c).bInvalidAnimation = true) ∧
    (∀ c : Clock, c.bInvalidAnimation = true →
      (registerAnimation c).requestsIssued = c.requestsIssued ∧
      (registerAnimation c).outstanding = c.outstanding) ∧
    (∀ c c' : Clock, ClockInv c → ClockStep c c' → ClockInv c') ∧
    (∀ c : Clock, ClockInv c → c.outstanding ≤ 1) ∧
    ClockInv Clock.init := by
  refine ⟨?_, ?_, ?_, ?_, by simp [ClockInv, Clock.init]⟩
  · intro c h1 h2 _
    unfold registerAnimation requestAnimation
    simp [h1, h2]
  · intro c h1
    unfold registerAnimation requestAnimation
    simp [h1]
  · intro c c' hinv hstep
    unfold ClockInv at hinv ⊢
    cases hstep with
    | register =>
        unfold registerAnimation requestAnimation
        split_ifs at hinv ⊢ <;> simp_all
    | unregister =>
        unfold unregisterAnimation
        split_ifs at hinv ⊢ <;> simp_all
    | frame now hout =>
        unfold onAnimation requestAnimation
        split_ifs at hinv ⊢ <;> simp_all
    | evShow =>
        unfold onAnimationResume requestAnimation
        split_ifs at hinv ⊢ <;> simp_all
    | evHide =>
        unfold onAnimationPause
        split_ifs at hinv ⊢ <;> simp_all
  · intro c hinv
    unfold ClockInv at hinv
    split_ifs at hinv <;> omega

/-- Claim C7 witness at concrete states. -/
theorem scheduler_single_request_witness :
    (registerAnimation { Clock.init with bRunning := true }).requestsIssued =
      { Clock.init with bRunning := true }.requestsIssued + 1 ∧
    { Clock.init with bRunning := true }.outstanding ≤ 1 := by
  have h := scheduler_single_request
  exact ⟨(h.1 { Clock.init with bRunning := true } rfl rfl rfl).1,
    h.2.2.2.1 _ (by simp [ClockInv, Clock.init])⟩

/-- Claim C7 counterexample: starting from the visible idle clock,
register a listener (one request goes in flight), unregister it, and
register another listener while the frame is still in flight: zero
listeners were present and the document is visible, yet the second
registration issues zero new platform requests (the in-flight flag
guards it). -/
theorem register_during_inflight_frame_issues_no_request :
    (unregisterAnimation (registerAnimation (onAnimationResume Clock.init))).listeners
      = 0 ∧
    (unregisterAnimation (registerAnimation (onAnimationResume Clock.init))).bRunning
      = true ∧
    (unregisterAnimation (registerAnimation (onAnimationResume Clock.init))).outstanding
      = 1 ∧
    (registerAnimation (unregisterAnimation (registerAnimation
        (onAnimationResume Clock.init)))).requestsIssued =
      (unregisterAnimation (registerAnimation
        (onAnimationResume Clock.init))).requestsIssued := by
  refine ⟨?_, ?_, ?_, ?_⟩ <;> with_unfolding_all decide

/-- Claim C8 witness at concrete inputs. -/
theorem pingpong_triangular_wave_witness :
    ((Animation.init.start 0 100 none none).next 130).2
      = some (1 - |Int.fract (((130:ℚ) - 0) / 100) * 2 - 1|) ∧
    ((Animation.init.start 0 100 none none).next (0 + 100/4)).2 = some (1/2) := by
  have h := pingpong_triangular_wave Animation.init 0 100 130 none
    (by norm_num) (by norm_num) (by intro c hc; cases hc)
  exact ⟨h.1, h.2.1⟩
